import Mathlib

/-!
Verification development for the Account Orchestrator of the scraping gateway
(`TwitterClientProvider`).  The definitions below are a shallow embedding of the
provider's pure logic: time (`Date.now()`) and random choices are passed as
explicit parameters, JavaScript numbers become `Nat`/`Int`/`Rat`, the in-memory
account-health `Map` becomes an association list, and each mutating method
becomes a function from state to state.
-/

namespace XScraper

set_option maxRecDepth 1000000

/-- Checks that `pat` occurs at the head of `s` (character-wise equality). -/
def matchesAt : List Char → List Char → Bool
  | [], _ => true
  | _ :: _, [] => false
  | a :: pat, b :: s => a == b && matchesAt pat s

/-- Checks that `pat` occurs somewhere in `s`, as `String.prototype.includes`. -/
def containsSub (pat : List Char) : List Char → Bool
  | [] => matchesAt pat []
  | b :: rest => matchesAt pat (b :: rest) || containsSub pat rest

/-- Embedding of `message.includes(pat)`: the (already lower-cased) message is
kept as a character list, the pattern as a string literal. -/
def includesStr (s : List Char) (pat : String) : Bool := containsSub pat.data s

/-- Embedding of `message.toLowerCase()`; the messages classified here are
ASCII, on which JavaScript and `Char.toLower` agree. -/
def lowerStr (s : String) : List Char := s.data.map Char.toLower

/-- Error kinds, from `enum ErrorType` of the provider. -/
inductive ErrorType
  | TIMEOUT
  | NETWORK
  | RATE_LIMIT
  | AUTH
  | NOT_FOUND
  | ACCOUNT_LOCKED
  | ACCOUNT_SUSPENDED
  | UNKNOWN
deriving DecidableEq, Repr

/-- Account health statuses, from `enum AccountStatus` of the provider. -/
inductive AccountStatus
  | HEALTHY
  | PROBATION
  | COOLDOWN
  | DISABLED
  | LOCKED
  | SUSPENDED
deriving DecidableEq, Repr

/-- Circuit breaker states, from `enum CircuitState` of the provider. -/
inductive CircuitState
  | CLOSED
  | OPEN
  | HALF_OPEN
deriving DecidableEq, Repr

/-- An error value reaching `classifyError`: its message, together with the
outcome of the attempted `JSON.parse` of the lower-cased message and the
`errors[].code === 326` check (source lines 90-97 of the provider), which is
abstracted as the boolean `json326` because both the source and the
specification agree verbatim on that first rule. -/
structure ErrMsg where
  json326 : Bool
  message : String
deriving DecidableEq, Repr

/-- Shallow embedding of `classifyError` (provider lines 87-145): lower-case the
message, then first-match through the substring rules in source order. -/
def classifyError (e : ErrMsg) : ErrorType :=
  let m := lowerStr e.message
  if e.json326 then .ACCOUNT_LOCKED
  else if includesStr m "response status: 401" || includesStr m "status code: 401" then
    .ACCOUNT_SUSPENDED
  else if includesStr m "timeout" || includesStr m "timed out" then .TIMEOUT
  else if includesStr m "network" || includesStr m "fetch failed" ||
      includesStr m "connection" || includesStr m "socket" then .NETWORK
  else if includesStr m "rate limit" || includesStr m "too many requests" ||
      includesStr m "429" then .RATE_LIMIT
  else if includesStr m "auth" || includesStr m "login" || includesStr m "credentials" ||
      includesStr m "unauthorized" || includesStr m "401" then .AUTH
  else if includesStr m "not found" || includesStr m "404" then .NOT_FOUND
  else if includesStr m "account is temporarily locked" ||
      includesStr m "account locked" || includesStr m "to unlock your account" then
    .ACCOUNT_LOCKED
  else .UNKNOWN

/-- The nine ordered classification rules exactly as the specification words
them (§4.3): rule 2 there reads `contains "status 401" or "status code: 401"`.
This definition is written from the specification, to be compared with
`classifyError`, which is written from the source. -/
def specClassifyError (e : ErrMsg) : ErrorType :=
  let m := lowerStr e.message
  if e.json326 then .ACCOUNT_LOCKED
  else if includesStr m "status 401" || includesStr m "status code: 401" then
    .ACCOUNT_SUSPENDED
  else if includesStr m "timeout" || includesStr m "timed out" then .TIMEOUT
  else if includesStr m "network" || includesStr m "fetch failed" ||
      includesStr m "connection" || includesStr m "socket" then .NETWORK
  else if includesStr m "rate limit" || includesStr m "too many requests" ||
      includesStr m "429" then .RATE_LIMIT
  else if includesStr m "auth" || includesStr m "login" || includesStr m "credentials" ||
      includesStr m "unauthorized" || includesStr m "401" then .AUTH
  else if includesStr m "not found" || includesStr m "404" then .NOT_FOUND
  else if includesStr m "account is temporarily locked" ||
      includesStr m "account locked" || includesStr m "to unlock your account" then
    .ACCOUNT_LOCKED
  else .UNKNOWN

/-- The specification's rules with rule 2 amended to the source's actual
substrings (`"response status: 401"` instead of the bare `"status 401"`). -/
def specClassifyErrorAmended (e : ErrMsg) : ErrorType :=
  let m := lowerStr e.message
  if e.json326 then .ACCOUNT_LOCKED
  else if includesStr m "response status: 401" || includesStr m "status code: 401" then
    .ACCOUNT_SUSPENDED
  else if includesStr m "timeout" || includesStr m "timed out" then .TIMEOUT
  else if includesStr m "network" || includesStr m "fetch failed" ||
      includesStr m "connection" || includesStr m "socket" then .NETWORK
  else if includesStr m "rate limit" || includesStr m "too many requests" ||
      includesStr m "429" then .RATE_LIMIT
  else if includesStr m "auth" || includesStr m "login" || includesStr m "credentials" ||
      includesStr m "unauthorized" || includesStr m "401" then .AUTH
  else if includesStr m "not found" || includesStr m "404" then .NOT_FOUND
  else if includesStr m "account is temporarily locked" ||
      includesStr m "account locked" || includesStr m "to unlock your account" then
    .ACCOUNT_LOCKED
  else .UNKNOWN

/-- Capacity of the concurrency gate, from the constructor (line 265):
`Math.max(50, Math.min(50, cpuCount * 4))`. -/
def maxConcurrentOperations (cpuCount : Nat) : Nat :=
  max 50 (min 50 (cpuCount * 4))

/-- Global circuit breaker state: `circuitState`, `circuitFailureCount`,
`circuitOpenTime` of the provider. -/
structure Breaker where
  state : CircuitState
  failureCount : Nat
  openTime : Nat
deriving DecidableEq, Repr

/-- `CIRCUIT_FAILURE_THRESHOLD` (15 failures). -/
def CIRCUIT_FAILURE_THRESHOLD : Nat := 15

/-- `CIRCUIT_RESET_TIMEOUT_MS` (60 seconds). -/
def CIRCUIT_RESET_TIMEOUT_MS : Nat := 60 * 1000

/-- Embedding of `checkCircuitBreaker` (lines 458-473): returns whether
dispatch is allowed, together with the possibly updated breaker (OPEN moves to
HALF_OPEN once strictly more than 60s have elapsed). -/
def checkCircuitBreaker (b : Breaker) (now : Nat) : Bool × Breaker :=
  match b.state with
  | .CLOSED => (true, b)
  | .OPEN =>
    if now - b.openTime > CIRCUIT_RESET_TIMEOUT_MS then
      (true, { b with state := .HALF_OPEN })
    else
      (false, b)
  | .HALF_OPEN => (true, b)

/-- Embedding of `updateCircuitBreaker` (lines 907-939). In the OPEN state the
source's switch has no case, so the breaker is unchanged. -/
def updateCircuitBreaker (b : Breaker) (success : Bool) (now : Nat) : Breaker :=
  match b.state with
  | .CLOSED =>
    if !success then
      let count := b.failureCount + 1
      if count ≥ CIRCUIT_FAILURE_THRESHOLD then
        { state := .OPEN, failureCount := count, openTime := now }
      else
        { b with failureCount := count }
    else
      { b with failureCount := b.failureCount - 1 }
  | .HALF_OPEN =>
    if success then
      { b with state := .CLOSED, failureCount := 0 }
    else
      { b with state := .OPEN, openTime := now }
  | .OPEN => b

/-- A registry account (`data.json` entry) restricted to the fields the
orchestrator's health logic reads and writes. -/
structure Cred where
  username : String
  usable : Bool
  isLocked : Bool
deriving DecidableEq, Repr

/-- One `errorHistory` entry. -/
structure ErrorRecord where
  type : ErrorType
  timestamp : Nat
  message : String
deriving DecidableEq, Repr

/-- The `AccountHealth` record of the provider.  `errorCounts` is the per-kind
tally (a total function instead of a JS `Record`); `successRate` is kept as an
exact rational. -/
structure AccountHealth where
  status : AccountStatus
  lastUsed : Nat
  requestCount : Nat
  errorCounts : ErrorType → Nat
  consecutiveFailures : Nat
  consecutiveSuccesses : Nat
  cooldownUntil : Option Nat
  lastErrorType : Option ErrorType
  lastErrorMessage : Option String
  lastErrorTime : Option Nat
  errorHistory : List ErrorRecord
  responseTimeHistory : List Nat
  successRate : Rat
  lastSuccessTime : Option Nat
  requestHistory : List Nat

/-- `RATE_LIMIT_WINDOW_MS` (15 minutes). -/
def RATE_LIMIT_WINDOW_MS : Nat := 15 * 60 * 1000

/-- `REQUESTS_PER_HOUR`, the per-window request cap (200). -/
def REQUESTS_PER_HOUR : Nat := 200

/-- `ERROR_HISTORY_LIMIT` (25 entries). -/
def ERROR_HISTORY_LIMIT : Nat := 25

/-- `AUTH_ERROR_THRESHOLD` (50 errors). -/
def AUTH_ERROR_THRESHOLD : Nat := 50

/-- `AUTH_ERROR_WINDOW_MS` (24 hours). -/
def AUTH_ERROR_WINDOW_MS : Nat := 24 * 60 * 60 * 1000

/-- `COOLDOWN_DURATION_MS` (2 minutes). -/
def COOLDOWN_DURATION_MS : Nat := 2 * 60 * 1000

/-- `MAX_CONSECUTIVE_FAILURES` (50). -/
def MAX_CONSECUTIVE_FAILURES : Nat := 50

/-- `SUCCESS_RATE_WINDOW` (100). -/
def SUCCESS_RATE_WINDOW : Nat := 100

/-- `RESPONSE_TIME_HISTORY_LIMIT` (50). -/
def RESPONSE_TIME_HISTORY_LIMIT : Nat := 50

/-- `ERROR_RESET_TIME_MS` (15 minutes). -/
def ERROR_RESET_TIME_MS : Nat := 15 * 60 * 1000

/-- The record `getAccountHealth` creates lazily for a new username
(lines 651-676). -/
def freshHealth : AccountHealth where
  status := .HEALTHY
  lastUsed := 0
  requestCount := 0
  errorCounts := fun _ => 0
  consecutiveFailures := 0
  consecutiveSuccesses := 0
  cooldownUntil := none
  lastErrorType := none
  lastErrorMessage := none
  lastErrorTime := none
  errorHistory := []
  responseTimeHistory := []
  successRate := 1
  lastSuccessTime := none
  requestHistory := []

/-- The sliding-window trim `now - timestamp < RATE_LIMIT_WINDOW_MS` applied to
a request-timestamp list (JS subtraction of a not-later timestamp is the
truncated `Nat` subtraction here). -/
def trimWindow (now : Nat) (hist : List Nat) : List Nat :=
  hist.filter (fun t => now - t < RATE_LIMIT_WINDOW_MS)

/-- Embedding of `countRecentAuthErrors` (lines 678-685). -/
def countRecentAuthErrors (h : AccountHealth) (now windowMs : Nat) : Nat :=
  (h.errorHistory.filter
    (fun e => e.type = ErrorType.AUTH ∧ now - e.timestamp < windowMs)).length

/-- Embedding of `canAccountMakeRequest` (lines 687-710): trims the request
window in place, then allows when it holds fewer than `REQUESTS_PER_HOUR`
timestamps, otherwise refuses with the remaining wait.  Returns the
health record with the trimmed window together with `none` for "can request"
or `some waitTime` for a refusal. -/
def canAccountMakeRequest (h : AccountHealth) (now : Nat) :
    AccountHealth × Option Nat :=
  let h' := { h with requestHistory := trimWindow now h.requestHistory }
  if h'.requestHistory.length < REQUESTS_PER_HOUR then
    (h', none)
  else
    (h', some (RATE_LIMIT_WINDOW_MS - (now - h'.requestHistory.headD 0)))

/-- The bookkeeping prologue of `updateAccountHealth` (lines 718-743): stamp
`lastUsed`, count the request, push `now` into the trimmed window, push the
response time into its capped ring, and recompute `successRate`. -/
def updateStats (now : Nat) (rtt : Option Nat) (h : AccountHealth) : AccountHealth :=
  let requestHistory := trimWindow now (h.requestHistory ++ [now])
  let responseTimeHistory :=
    match rtt with
    | none => h.responseTimeHistory
    | some r =>
      let l := h.responseTimeHistory ++ [r]
      if l.length > RESPONSE_TIME_HISTORY_LIMIT then l.tail else l
  let requestCount := h.requestCount + 1
  let successCount :=
    (h.errorHistory.filter (fun e => now - e.timestamp < SUCCESS_RATE_WINDOW)).length
  let successRate : Rat :=
    if requestCount > 0 then ((requestCount : Rat) - (successCount : Rat)) / (requestCount : Rat)
    else 1
  { h with
    lastUsed := now
    requestCount := requestCount
    requestHistory := requestHistory
    responseTimeHistory := responseTimeHistory
    successRate := successRate }

/-- The success branch of `updateAccountHealth` (lines 745-758). -/
def applySuccess (now : Nat) (h : AccountHealth) : AccountHealth :=
  let h' := { h with
    consecutiveSuccesses := h.consecutiveSuccesses + 1
    consecutiveFailures := 0
    lastSuccessTime := some now }
  if h'.status = .PROBATION ∧ h'.consecutiveSuccesses ≥ 3 then
    { h' with status := .HEALTHY }
  else h'

/-- Mutation of the first credential with the given username, leaving the rest
alone (the JS code looks the object up with `credentials.find` and mutates it
in place). -/
def mapFirstCred (u : String) (f : Cred → Cred) : List Cred → List Cred
  | [] => []
  | c :: rest => if c.username = u then f c :: rest else c :: mapFirstCred u f rest

/-- `credentials.find(c => c.username === username)` followed by
`isLocked = true; usable = false`: flips the flags of the first credential
with the given username, as the terminal branch of `updateAccountHealth`
does before saving the registry (lines 790-799). -/
def markLockedFirst (u : String) (creds : List Cred) : List Cred :=
  mapFirstCred u (fun c => { c with isLocked := true, usable := false }) creds

/-- The 24h AUTH-error threshold check that follows the non-terminal switch
cases of `updateAccountHealth` (lines 847-857): count the recent AUTH errors
of the (already updated) health record and disable the account when the
threshold is met, else return true. -/
def authThresholdCheck (now : Nat) (h3 : AccountHealth) (creds : List Cred) :
    AccountHealth × List Cred × Bool :=
  if countRecentAuthErrors h3 now AUTH_ERROR_WINDOW_MS ≥ AUTH_ERROR_THRESHOLD then
    ({ h3 with status := .DISABLED }, creds, false)
  else
    (h3, creds, true)

/-- The failure branch of `updateAccountHealth` (lines 759-858): classify,
bump the failure counters and the error history (capped at 25 entries), then
switch on the kind.  TIMEOUT / ACCOUNT_LOCKED / ACCOUNT_SUSPENDED return
`false` immediately after marking the credential locked and unusable; the
remaining kinds fall through to the 24h AUTH-error threshold check.  The
result is (new health, new credential list, the returned boolean). -/
def applyFailure (now : Nat) (u : String) (e : ErrMsg) (h : AccountHealth)
    (creds : List Cred) : AccountHealth × List Cred × Bool :=
  let et := classifyError e
  let h1 := { h with
    consecutiveFailures := h.consecutiveFailures + 1
    consecutiveSuccesses := 0
    errorCounts := fun t => if t = et then h.errorCounts t + 1 else h.errorCounts t
    lastErrorType := some et
    lastErrorMessage := some e.message
    lastErrorTime := some now }
  let eh := h1.errorHistory ++ [⟨et, now, e.message⟩]
  let h2 := { h1 with errorHistory := if eh.length > ERROR_HISTORY_LIMIT then eh.tail else eh }
  match et with
  | .TIMEOUT | .ACCOUNT_LOCKED | .ACCOUNT_SUSPENDED =>
    let st := if et = .ACCOUNT_SUSPENDED then AccountStatus.SUSPENDED else AccountStatus.LOCKED
    ({ h2 with status := st }, markLockedFirst u creds, false)
  | .AUTH =>
    authThresholdCheck now
      (if h2.consecutiveFailures ≥ 5 then
        { h2 with status := .COOLDOWN, cooldownUntil := some (now + COOLDOWN_DURATION_MS) }
      else h2) creds
  | .RATE_LIMIT =>
    authThresholdCheck now
      { h2 with status := .COOLDOWN, cooldownUntil := some (now + COOLDOWN_DURATION_MS) } creds
  | .NETWORK =>
    authThresholdCheck now
      (if h2.consecutiveFailures ≥ 10 then { h2 with status := .PROBATION } else h2) creds
  | .NOT_FOUND =>
    authThresholdCheck now
      { h2 with consecutiveFailures := h2.consecutiveFailures - 1 } creds
  | .UNKNOWN =>
    authThresholdCheck now
      (if h2.consecutiveFailures ≥ MAX_CONSECUTIVE_FAILURES then
        { h2 with status := .PROBATION }
      else h2) creds

/-- Embedding of `updateAccountHealth` (lines 712-861), acting on the health
record of `u` and on the credential list (registry persistence of the flag
flips is the `saveCredentials` call on the returned list).  The returned
boolean is the function's return value: `false` exactly when the account must
be externally treated as unusable. -/
def updateAccountHealth (now : Nat) (u : String) (success : Bool)
    (error : Option ErrMsg) (rtt : Option Nat) (h : AccountHealth)
    (creds : List Cred) : AccountHealth × List Cred × Bool :=
  let h1 := updateStats now rtt h
  if success then (applySuccess now h1, creds, true)
  else
    match error with
    | some e => applyFailure now u e h1 creds
    | none => (h1, creds, true)

/-- Iterated failing calls to `updateAccountHealth`, one per (timestamp,
error) pair, threading health and credentials. -/
def foldFailures (u : String) (steps : List (Nat × ErrMsg))
    (h : AccountHealth) (creds : List Cred) : AccountHealth × List Cred × Bool :=
  steps.foldl
    (fun acc p => updateAccountHealth p.1 u false (some p.2) none acc.1 acc.2.1)
    (h, creds, true)

/-- The in-memory `accountHealth` map, as an association list with at most one
entry per key (entries are only inserted when the key is absent). -/
abbrev HMap : Type := List (String × AccountHealth)

/-- The provider state the orchestrator core mutates: the loaded credential
list and the health map. -/
structure SysState where
  creds : List Cred
  health : HMap

/-- Read of `getAccountHealth(u)`: the stored record, or the lazily created
fresh one. -/
def SysState.healthOf (σ : SysState) (u : String) : AccountHealth :=
  (σ.health.lookup u).getD freshHealth

/-- Write-back of a mutated health record: replace the entry if present,
append it otherwise (as `getAccountHealth` inserts then mutates in place). -/
def setH (u : String) (h : AccountHealth) : HMap → HMap
  | [] => [(u, h)]
  | p :: rest => if p.1 = u then (u, h) :: rest else p :: setH u h rest

/-- One call of `updateAccountHealth` lifted to the provider state. -/
def applyUpdate (σ : SysState) (now : Nat) (u : String) (success : Bool)
    (error : Option ErrMsg) (rtt : Option Nat) : SysState :=
  let r := updateAccountHealth now u success error rtt (σ.healthOf u) σ.creds
  { creds := r.2.1, health := setH u r.1 σ.health }

/-- The availability filter of `selectAvailableAccount` (lines 873-888):
usable, not hard-locked, within the rate window, not DISABLED or LOCKED, and
not in an unexpired COOLDOWN. -/
def selectionOk (now : Nat) (σ : SysState) (acc : Cred) : Bool :=
  let h := σ.healthOf acc.username
  acc.usable && !acc.isLocked && (canAccountMakeRequest h now).2.isNone &&
    decide (h.status ≠ .DISABLED) && decide (h.status ≠ .LOCKED) &&
    !(decide (h.status = .COOLDOWN) &&
      (match h.cooldownUntil with | some cu => decide (now < cu) | none => false))

/-- The filtered candidate list of `selectAvailableAccount`. -/
def availableAccounts (now : Nat) (σ : SysState) : List Cred :=
  σ.creds.filter (selectionOk now σ)

/-- Result of `selectAvailableAccount`: a selected account, or the soonest
rate-limited account with its wait, or nothing. -/
inductive Selection where
  | picked (c : Cred)
  | rateLimited (c : Cred) (wait : Nat)
  | noAccounts
deriving DecidableEq, Repr

/-- The fallback scan of `selectAvailableAccount` (lines 893-903): the
rate-limited account with the smallest (truthy, so nonzero) wait time. -/
def soonestRateLimited (now : Nat) (σ : SysState) : Option (Cred × Nat) :=
  σ.creds.foldl
    (fun best acc =>
      match (canAccountMakeRequest (σ.healthOf acc.username) now).2 with
      | some w =>
        if w != 0 && (match best with | none => true | some b => decide (w < b.2)) then
          some (acc, w)
        else best
      | none => best)
    none

/-- Embedding of `selectAvailableAccount` (lines 867-905); `Math.random()`s
index into the filtered list is the parameter `k` reduced modulo its length. -/
def selectAvailableAccount (now k : Nat) (σ : SysState) : Selection :=
  let avail := availableAccounts now σ
  if hne : avail.length ≠ 0 then
    .picked (avail.get ⟨k % avail.length, Nat.mod_lt _ (Nat.pos_of_ne_zero hne)⟩)
  else
    match soonestRateLimited now σ with
    | some cw => .rateLimited cw.1 cw.2
    | none => .noAccounts

/-- First credential with the given username (`credentials.find`). -/
def findCred (creds : List Cred) (u : String) : Option Cred :=
  creds.find? (fun c => decide (c.username = u))

/-- The `cred.usable = true; cred.isLocked = false` mutation of a fresh
credential login success (lines 2373-2374). -/
def setUnlockedUsable (u : String) (creds : List Cred) : List Cred :=
  mapFirstCred u (fun c => { c with usable := true, isLocked := false }) creds

/-- Outcome of a `tryLogin` call, as it affects state: success through stored
cookies (no credential mutation), success through a fresh credential login,
a plain failure, or a failure whose message carries JSON error code 326. -/
inductive LoginEffect where
  | cookieOk
  | freshOk
  | plainFail
  | fail326
deriving DecidableEq, Repr

/-- The COOLDOWN-expiry step of the sweep (lines 576-586): once
`now > cooldownUntil` (truthy deadline), move to PROBATION and clear the
failure counter. -/
def expireCooldown (now : Nat) (h1 : AccountHealth) : AccountHealth :=
  if decide (h1.status = .COOLDOWN) &&
      (match h1.cooldownUntil with | some cu => decide (now > cu) | none => false) then
    { h1 with status := .PROBATION, consecutiveFailures := 0 }
  else h1

/-- The stale-error reset of the sweep (lines 588-599): zero every error
counter once the last error is older than `ERROR_RESET_TIME_MS`. -/
def resetStaleErrors (now : Nat) (h2 : AccountHealth) : AccountHealth :=
  match h2.lastErrorTime with
  | some t =>
    if now - t > ERROR_RESET_TIME_MS then
      { h2 with errorCounts := fun _ => 0, consecutiveFailures := 0 }
    else h2
  | none => h2

/-- The credential reactivation of the sweep (lines 601-608): a soft-disabled
unlocked credential becomes usable again. -/
def reactivateCred (c : Cred) : Cred :=
  if ¬c.usable ∧ ¬c.isLocked then { c with usable := true } else c

/-- The recovery-login attempt of the sweep (lines 610-636), with the
`tryLogin` outcome passed as `eff` (and forced to a plain failure for a
hard-locked credential, which `tryLogin` refuses at entry): a success puts the
account on PROBATION with one consecutive success; a code-326 failure locks
the credential and the health record. -/
def recoveryLogin (now : Nat) (eff : LoginEffect) (c1 : Cred) (h3 : AccountHealth) :
    Cred × AccountHealth :=
  if (h3.status = .PROBATION ∨ h3.status = .COOLDOWN) ∧
      now - h3.lastUsed > COOLDOWN_DURATION_MS then
    match (if c1.isLocked then LoginEffect.plainFail else eff) with
    | .cookieOk =>
      (c1, { h3 with status := .PROBATION, consecutiveSuccesses := 1,
                     consecutiveFailures := 0 })
    | .freshOk =>
      ({ c1 with usable := true, isLocked := false },
       { h3 with status := .PROBATION, consecutiveSuccesses := 1,
                 consecutiveFailures := 0 })
    | .plainFail => (c1, h3)
    | .fail326 =>
      ({ c1 with isLocked := true, usable := false }, { h3 with status := .LOCKED })
  else (c1, h3)

/-- Per-account body of the `checkAccountHealth` sweep (lines 565-637): trim
the request window; return early for HEALTHY, LOCKED / hard-locked and
SUSPENDED accounts; then expire the cooldown, reset stale error counters,
reactivate the credential, and attempt a recovery login. -/
def sweepAccount (now : Nat) (eff : LoginEffect) (c : Cred) (h : AccountHealth) :
    Cred × AccountHealth :=
  let h1 := { h with requestHistory := trimWindow now h.requestHistory }
  if h1.status = .HEALTHY then (c, h1)
  else if h1.status = .LOCKED ∨ c.isLocked then (c, h1)
  else if h1.status = .SUSPENDED then (c, h1)
  else recoveryLogin now eff (reactivateCred c) (resetStaleErrors now (expireCooldown now h1))

/-- The state transitions the orchestrator performs on the credential list and
the health map, one constructor per mutation site of the source. -/
inductive Step : SysState → SysState → Prop
  /-- Any call of `updateAccountHealth` (success, failure, or the bare
  `updateAccountHealth(username, false)` of line 999). -/
  | healthUpdate (σ : SysState) (now : Nat) (u : String) (success : Bool)
      (error : Option ErrMsg) (rtt : Option Nat) :
      Step σ (applyUpdate σ now u success error rtt)
  /-- The explicit ban branches of `executeWithAccount` (lines 1047-1067,
  1070-1088 and 1110-1127): lock and unmark the credential, persist, and force
  the health status to SUSPENDED or LOCKED. -/
  | manualMark (σ : SysState) (u : String) (st : AccountStatus)
      (hst : st = .SUSPENDED ∨ st = .LOCKED) :
      Step σ
        { creds := markLockedFirst u σ.creds,
          health := setH u { σ.healthOf u with status := st } σ.health }
  /-- A fresh credential login success inside `tryLogin` (lines 2373-2375);
  reachable only when the credential was not hard-locked at entry
  (line 2303). -/
  | loginFresh (σ : SysState) (u : String) (c : Cred)
      (hc : findCred σ.creds u = some c) (hunlocked : c.isLocked = false) :
      Step σ { σ with creds := setUnlockedUsable u σ.creds }
  /-- A `tryLogin` failure carrying JSON error code 326 (lines 2383-2399):
  lock the credential and set the health status to LOCKED. -/
  | login326 (σ : SysState) (u : String) :
      Step σ
        { creds := markLockedFirst u σ.creds,
          health := setH u { σ.healthOf u with status := .LOCKED } σ.health }
  /-- One account of the background health sweep `checkAccountHealth`. -/
  | sweepOne (σ : SysState) (now : Nat) (u : String) (eff : LoginEffect)
      (c : Cred) (hc : findCred σ.creds u = some c) :
      Step σ
        { creds := mapFirstCred u (fun _ => (sweepAccount now eff c (σ.healthOf u)).1) σ.creds,
          health := setH u (sweepAccount now eff c (σ.healthOf u)).2 σ.health }
  /-- The window trim `canAccountMakeRequest` performs as a side effect
  wherever it is called. -/
  | trimHistory (σ : SysState) (now : Nat) (u : String) :
      Step σ
        { σ with
          health := setH u (canAccountMakeRequest (σ.healthOf u) now).1 σ.health }

/-- Ensure a health entry exists, as `loadCredentials` does per credential
(lines 2233-2255). -/
def ensureHealth (u : String) (hm : HMap) : HMap :=
  match hm.lookup u with
  | some _ => hm
  | none => (u, freshHealth) :: hm

/-- Overwrite the status of an existing health entry (no-op when absent), as
`loadCredentials` does for hard-locked credentials (lines 2257-2261). -/
def setStatusH (u : String) (s : AccountStatus) (hm : HMap) : HMap :=
  match hm.lookup u with
  | some h => setH u { h with status := s } hm
  | none => hm

/-- Per-credential body of the `loadCredentials` post-processing loop
(lines 2232-2265): create the health record, then either force the status of a
hard-locked credential to LOCKED or mark the unlocked credential usable. -/
def loadStep (st : List Cred × HMap) (c : Cred) : List Cred × HMap :=
  let hm1 := ensureHealth c.username st.2
  if c.isLocked then
    (st.1 ++ [c], setStatusH c.username .LOCKED hm1)
  else
    (st.1 ++ [{ c with usable := true }], hm1)

/-- Embedding of a completed `loadCredentials` (lines 2212-2276): parse the
file into the credential list and post-process every entry. -/
def loadCredentials (fileCreds : List Cred) (hm : HMap) : List Cred × HMap :=
  fileCreds.foldl loadStep ([], hm)

/-- Provider state right after module initialisation: the registry file loaded
into an empty health map. -/
def initState (fileCreds : List Cred) : SysState :=
  { creds := (loadCredentials fileCreds []).1, health := (loadCredentials fileCreds []).2 }

/-- States reachable from a completed initial load by any sequence of
orchestrator transitions. -/
def Reachable (fileCreds : List Cred) (σ : SysState) : Prop :=
  Relation.ReflTransGen Step (initState fileCreds) σ

/-- The maintained correlation between health statuses and the hard lock flag:
usernames are unique in the registry, and a credential whose health status is
SUSPENDED always carries `isLocked = true`. -/
def Inv (σ : SysState) : Prop :=
  (σ.creds.map (fun c => c.username)).Nodup ∧
    ∀ c ∈ σ.creds, (σ.healthOf c.username).status = .SUSPENDED → c.isLocked = true

/-- A proxy list entry (lines 190-197). -/
structure Proxy where
  host : String
  port : String
  username : String
  password : String
  id : String
  nextRequestAt : Nat
deriving DecidableEq, Repr

/-- Proxy pool state: the loaded list and the username → proxy map. -/
structure ProxyState where
  proxies : List Proxy
  assignment : List (String × Proxy)
deriving DecidableEq, Repr

/-- Embedding of `assignProxyToAccount` (lines 324-345): an existing binding is
returned unchanged; otherwise with an empty pool the result is `none`; else
the proxy at index `assignedCount % proxies.length` is bound and returned. -/
def assignProxyToAccount (st : ProxyState) (u : String) : Option Proxy × ProxyState :=
  match st.assignment.lookup u with
  | some p => (some p, st)
  | none =>
    if hlen : st.proxies.length = 0 then (none, st)
    else
      let p := st.proxies.get
        ⟨st.assignment.length % st.proxies.length, Nat.mod_lt _ (Nat.pos_of_ne_zero hlen)⟩
      (some p, { st with assignment := st.assignment ++ [(u, p)] })

/-- Any further sequence of assignment calls, folded over the pool state. -/
def applyAssignments (us : List String) (st : ProxyState) : ProxyState :=
  us.foldl (fun s u => (assignProxyToAccount s u).2) st

/-- C8 counterexample: with 13 CPU cores the gate capacity is 50 — not
`max(50, 13 × 4) = 52` as the claim states — and it does not exceed 50. -/
theorem C8_counterexample :
    maxConcurrentOperations 13 ≠ max 50 (13 * 4) ∧ ¬ maxConcurrentOperations 13 > 50 := by
  decide

/-- C8 amended: the constructor computes
`Math.max(50, Math.min(50, cpuCount * 4))`, whose inner `min` clamps the CPU
term to 50, so the gate capacity is 50 for every CPU count. -/
theorem C8_capacity_always_fifty (cpuCount : Nat) : maxConcurrentOperations cpuCount = 50 := by
  unfold maxConcurrentOperations
  omega

/-- C3 counterexample: with the breaker OPEN since time 0, a dispatch at
exactly 60 000 ms — where `now − openedAt ≥ 60s` already holds — is still
refused and the breaker stays OPEN, because the source requires the elapsed
time to be strictly greater than 60s. -/
theorem C3_counterexample :
    (checkCircuitBreaker ⟨.OPEN, 15, 0⟩ 60000).1 = false ∧
    (checkCircuitBreaker ⟨.OPEN, 15, 0⟩ 60000).2.state = .OPEN := by
  decide

/-- C3 amended: the three-state machine behaves as claimed except that OPEN
admits the next attempt only once strictly more than 60s have elapsed:
in CLOSED a failure increments the count (reaching 15 moves to OPEN recording
`openedAt`) and a success decrements it toward zero; in OPEN dispatch is
allowed exactly when `now − openedAt > 60s`, moving to HALF_OPEN; in
HALF_OPEN dispatch is allowed, a success returns to CLOSED resetting the
count, and a failure returns to OPEN with a refreshed `openedAt`. -/
theorem C3_breaker_machine (b : Breaker) (now : Nat) :
    (b.state = .CLOSED →
      (updateCircuitBreaker b false now).failureCount = b.failureCount + 1 ∧
      (b.failureCount + 1 ≥ 15 →
        (updateCircuitBreaker b false now).state = .OPEN ∧
        (updateCircuitBreaker b false now).openTime = now) ∧
      (b.failureCount + 1 < 15 →
        updateCircuitBreaker b false now = { b with failureCount := b.failureCount + 1 })) ∧
    (b.state = .CLOSED →
      updateCircuitBreaker b true now = { b with failureCount := b.failureCount - 1 }) ∧
    (b.state = .OPEN →
      ((checkCircuitBreaker b now).1 = true ↔ now - b.openTime > 60000) ∧
      (now - b.openTime > 60000 →
        (checkCircuitBreaker b now).2 = { b with state := .HALF_OPEN }) ∧
      (¬ now - b.openTime > 60000 → (checkCircuitBreaker b now).2 = b)) ∧
    (b.state = .HALF_OPEN →
      (checkCircuitBreaker b now).1 = true ∧
      updateCircuitBreaker b true now = { b with state := .CLOSED, failureCount := 0 } ∧
      updateCircuitBreaker b false now = { b with state := .OPEN, openTime := now }) := by
  obtain ⟨st, fc, ot⟩ := b
  refine ⟨fun hs => ?_, fun hs => ?_, fun hs => ?_, fun hs => ?_⟩ <;> subst hs
  · by_cases h15 : fc + 1 ≥ 15
    · have hu : updateCircuitBreaker ⟨.CLOSED, fc, ot⟩ false now = ⟨.OPEN, fc + 1, now⟩ := by
        simp [updateCircuitBreaker, CIRCUIT_FAILURE_THRESHOLD, h15]
      rw [hu]
      exact ⟨rfl, fun _ => ⟨rfl, rfl⟩, fun hlt => absurd h15 (by dsimp only at hlt; omega)⟩
    · have hu : updateCircuitBreaker ⟨.CLOSED, fc, ot⟩ false now = ⟨.CLOSED, fc + 1, ot⟩ := by
        simp [updateCircuitBreaker, CIRCUIT_FAILURE_THRESHOLD, h15]
      rw [hu]
      exact ⟨rfl, fun hge => absurd hge h15, fun _ => rfl⟩
  · rfl
  · by_cases hgt : now - ot > 60000
    · have hc : checkCircuitBreaker ⟨.OPEN, fc, ot⟩ now = (true, ⟨.HALF_OPEN, fc, ot⟩) := by
        simp [checkCircuitBreaker, CIRCUIT_RESET_TIMEOUT_MS, hgt]
      rw [hc]
      exact ⟨by simp [hgt], fun _ => rfl, fun h => absurd hgt h⟩
    · have hc : checkCircuitBreaker ⟨.OPEN, fc, ot⟩ now = (false, ⟨.OPEN, fc, ot⟩) := by
        simp [checkCircuitBreaker, CIRCUIT_RESET_TIMEOUT_MS, hgt]
      rw [hc]
      exact ⟨by simp [hgt], fun h => absurd h hgt, fun _ => rfl⟩
  · exact ⟨rfl, rfl, rfl⟩

/-- C3 witness: the amended breaker machine at concrete states — a 15th
failure trips CLOSED to OPEN at time 5, an OPEN breaker opened at 0 admits a
dispatch at 60 001 ms, and a HALF_OPEN failure at time 7 reopens recording 7. -/
theorem C3_breaker_machine_witness :
    (updateCircuitBreaker ⟨.CLOSED, 14, 0⟩ false 5).state = .OPEN ∧
    (checkCircuitBreaker ⟨.OPEN, 15, 0⟩ 60001).1 = true ∧
    (updateCircuitBreaker ⟨.HALF_OPEN, 3, 0⟩ false 7).openTime = 7 := by
  refine ⟨?_, ?_, ?_⟩
  · exact (((C3_breaker_machine ⟨.CLOSED, 14, 0⟩ 5).1 rfl).2.1 (by decide)).1
  · exact ((C3_breaker_machine ⟨.OPEN, 15, 0⟩ 60001).2.2.1 rfl).1.mpr (by decide)
  · rw [((C3_breaker_machine ⟨.HALF_OPEN, 3, 0⟩ 7).2.2.2 rfl).2.2]

/-- C5 counterexample: the source's rule 2 matches `"response status: 401"` or
`"status code: 401"`, not the specification's bare `"status 401"`; the two
classifiers disagree in both directions on concrete messages. -/
theorem C5_counterexample :
    classifyError ⟨false, "Response status: 401"⟩ = .ACCOUNT_SUSPENDED ∧
    specClassifyError ⟨false, "Response status: 401"⟩ = .AUTH ∧
    classifyError ⟨false, "HTTP status 401"⟩ = .AUTH ∧
    specClassifyError ⟨false, "HTTP status 401"⟩ = .ACCOUNT_SUSPENDED := by
  decide

/-- C5 amended: with rule 2 amended to the source's substrings
(`"response status: 401"` / `"status code: 401"`), the classifier equals the
nine ordered first-match rules on the lower-cased message, and two calls on
the same error always yield the same kind. -/
theorem C5_classifier_matches_rules (e : ErrMsg) :
    classifyError e = specClassifyErrorAmended e ∧
    ∀ e2 : ErrMsg, e2 = e → classifyError e2 = classifyError e := by
  exact ⟨rfl, fun e2 h => by rw [h]⟩

/-- C5 witness: the amended rule equality and determinism at a concrete
message. -/
theorem C5_classifier_matches_rules_witness :
    classifyError ⟨false, "rate limit hit"⟩ = specClassifyErrorAmended ⟨false, "rate limit hit"⟩ ∧
    classifyError ⟨false, "rate limit hit"⟩ = classifyError ⟨false, "rate limit hit"⟩ :=
  ⟨(C5_classifier_matches_rules ⟨false, "rate limit hit"⟩).1,
   (C5_classifier_matches_rules ⟨false, "rate limit hit"⟩).2 ⟨false, "rate limit hit"⟩ rfl⟩

theorem countRecentAuthErrors_le (h : AccountHealth) (now w : Nat) :
    countRecentAuthErrors h now w ≤ h.errorHistory.length :=
  List.length_filter_le _ _

/-- C6: `canAccountMakeRequest` first trims the request window to the last 15
minutes; it allows exactly when the trimmed window holds fewer than 200
timestamps, and otherwise refuses with wait time
`15 minutes − (now − oldest remaining timestamp)` (the head of the trimmed
chronological window is its oldest entry). -/
theorem C6_canRequest (h : AccountHealth) (now : Nat)
    (hsorted : h.requestHistory.Sorted (· ≤ ·)) :
    (canAccountMakeRequest h now).1.requestHistory = trimWindow now h.requestHistory ∧
    ((canAccountMakeRequest h now).2 = none ↔
      (trimWindow now h.requestHistory).length < 200) ∧
    (∀ w, (canAccountMakeRequest h now).2 = some w →
      ∃ t0, (trimWindow now h.requestHistory).head? = some t0 ∧
        (∀ t ∈ trimWindow now h.requestHistory, t0 ≤ t) ∧
        w = 15 * 60 * 1000 - (now - t0)) := by
  refine ⟨?_, ?_, ?_⟩
  · unfold canAccountMakeRequest
    dsimp only
    split <;> rfl
  · unfold canAccountMakeRequest REQUESTS_PER_HOUR
    dsimp only
    split
    · rename_i hlt
      simpa using hlt
    · rename_i hlt
      simpa using hlt
  · intro w hw
    unfold canAccountMakeRequest REQUESTS_PER_HOUR at hw
    dsimp only at hw
    split at hw
    · simp at hw
    · rename_i hlt
      have hne : trimWindow now h.requestHistory ≠ [] := by
        intro hnil
        rw [hnil] at hlt
        simp at hlt
      obtain ⟨t0, rest, heq⟩ := List.exists_cons_of_ne_nil hne
      have hsort2 : (trimWindow now h.requestHistory).Sorted (· ≤ ·) :=
        List.Pairwise.filter _ hsorted
      refine ⟨t0, by rw [heq]; rfl, ?_, ?_⟩
      · intro t ht
        rw [heq] at ht hsort2
        rcases List.mem_cons.mp ht with h1 | h2
        · omega
        · exact (List.sorted_cons.mp hsort2).1 t h2
      · have hw2 : some (RATE_LIMIT_WINDOW_MS -
            (now - (trimWindow now h.requestHistory).headD 0)) = some w := hw
        have : (trimWindow now h.requestHistory).headD 0 = t0 := by rw [heq]; rfl
        rw [this] at hw2
        have := Option.some.inj hw2
        rw [← this]
        rfl

/-- C6 witness: a two-entry chronological window at time 20 stays below the
cap and the call allows. -/
theorem C6_canRequest_witness :
    (canAccountMakeRequest { freshHealth with requestHistory := [5, 10] } 20).1.requestHistory
        = trimWindow 20 [5, 10] ∧
    ((canAccountMakeRequest { freshHealth with requestHistory := [5, 10] } 20).2 = none ↔
      (trimWindow 20 [5, 10]).length < 200) := by
  have h := C6_canRequest { freshHealth with requestHistory := [5, 10] } 20 (by decide)
  exact ⟨h.1, h.2.1⟩

theorem markLockedFirst_mem (u : String) (creds : List Cred)
    (hmem : ∃ c ∈ creds, c.username = u) :
    ∃ c ∈ markLockedFirst u creds, c.username = u ∧ c.isLocked = true ∧ c.usable = false := by
  induction creds with
  | nil => simp at hmem
  | cons c rest ih =>
    unfold markLockedFirst mapFirstCred
    by_cases hc : c.username = u
    · rw [if_pos hc]
      exact ⟨_, List.mem_cons_self _ _, hc, rfl, rfl⟩
    · rw [if_neg hc]
      obtain ⟨c2, hc2mem, hc2u⟩ := hmem
      rcases List.mem_cons.mp hc2mem with h1 | h2
      · exact absurd (h1 ▸ hc2u) hc
      · obtain ⟨c3, hc3mem, hp⟩ := ih ⟨c2, h2, hc2u⟩
        exact ⟨c3, List.mem_cons_of_mem _ hc3mem, hp⟩

/-- C1 counterexample: a failure classified TIMEOUT (message
`"Request timeout"`, fresh account `"a"`) makes `updateAccountHealth` set the
health status to LOCKED, not SUSPENDED as the claim states. -/
theorem C1_counterexample :
    (updateAccountHealth 5 "a" false (some ⟨false, "Request timeout"⟩) none freshHealth
      [⟨"a", true, false⟩]).1.status ≠ .SUSPENDED ∧
    (updateAccountHealth 5 "a" false (some ⟨false, "Request timeout"⟩) none freshHealth
      [⟨"a", true, false⟩]).1.status = .LOCKED := by
  decide

/-- C1 amended: on a failure classified TIMEOUT, `updateAccountHealth` sets
the health status to LOCKED (the status is SUSPENDED only for
ACCOUNT_SUSPENDED; the dispatcher's own timeout branch in
`executeWithAccount`, which never reaches `updateAccountHealth`, is what sets
SUSPENDED), persists `isLocked = true` and `usable = false` on the account's
registry entry, and returns false. -/
theorem C1_timeout_locks_account (now : Nat) (u : String) (e : ErrMsg)
    (rtt : Option Nat) (h : AccountHealth) (creds : List Cred)
    (hcl : classifyError e = .TIMEOUT) (hmem : ∃ c ∈ creds, c.username = u) :
    (updateAccountHealth now u false (some e) rtt h creds).1.status = .LOCKED ∧
    (∃ c ∈ (updateAccountHealth now u false (some e) rtt h creds).2.1,
      c.username = u ∧ c.isLocked = true ∧ c.usable = false) ∧
    (updateAccountHealth now u false (some e) rtt h creds).2.2 = false := by
  have hrun : updateAccountHealth now u false (some e) rtt h creds
      = applyFailure now u e (updateStats now rtt h) creds := rfl
  rw [hrun]
  unfold applyFailure
  rw [hcl]
  dsimp only
  rw [if_neg (by decide)]
  exact ⟨rfl, markLockedFirst_mem u creds hmem, rfl⟩

/-- C1 witness: the amended behaviour at a concrete timeout failure. -/
theorem C1_timeout_locks_account_witness :
    (updateAccountHealth 5 "a" false (some ⟨false, "operation timed out"⟩) none freshHealth
      [⟨"a", true, false⟩]).1.status = .LOCKED ∧
    (∃ c ∈ (updateAccountHealth 5 "a" false (some ⟨false, "operation timed out"⟩) none
        freshHealth [⟨"a", true, false⟩]).2.1,
      c.username = "a" ∧ c.isLocked = true ∧ c.usable = false) ∧
    (updateAccountHealth 5 "a" false (some ⟨false, "operation timed out"⟩) none freshHealth
      [⟨"a", true, false⟩]).2.2 = false :=
  C1_timeout_locks_account 5 "a" ⟨false, "operation timed out"⟩ none freshHealth
    [⟨"a", true, false⟩] (by decide) ⟨⟨"a", true, false⟩, by decide, rfl⟩

theorem cappedHist_le (l : List ErrorRecord) (r : ErrorRecord)
    (hl : l.length ≤ ERROR_HISTORY_LIMIT) :
    (if (l ++ [r]).length > ERROR_HISTORY_LIMIT then (l ++ [r]).tail else l ++ [r]).length
      ≤ ERROR_HISTORY_LIMIT := by
  unfold ERROR_HISTORY_LIMIT at *
  split <;> simp_all

theorem count_below_threshold (S : AccountHealth) (now w : Nat)
    (hS : S.errorHistory.length ≤ ERROR_HISTORY_LIMIT) :
    ¬ countRecentAuthErrors S now w ≥ AUTH_ERROR_THRESHOLD := by
  have := countRecentAuthErrors_le S now w
  unfold AUTH_ERROR_THRESHOLD ERROR_HISTORY_LIMIT at *
  omega

theorem authThresholdCheck_of_capped (now : Nat) (S : AccountHealth) (creds : List Cred)
    (hS : S.errorHistory.length ≤ ERROR_HISTORY_LIMIT) :
    authThresholdCheck now S creds = (S, creds, true) := by
  unfold authThresholdCheck
  rw [if_neg (count_below_threshold S now _ hS)]

theorem applyFailure_notfound (now : Nat) (u : String) (e : ErrMsg) (g : AccountHealth)
    (creds : List Cred) (hcl : classifyError e = .NOT_FOUND)
    (hcap : g.errorHistory.length ≤ ERROR_HISTORY_LIMIT) :
    applyFailure now u e g creds =
      ({ g with
          consecutiveFailures := g.consecutiveFailures + 1 - 1,
          consecutiveSuccesses := 0,
          errorCounts := fun t =>
            if t = ErrorType.NOT_FOUND then g.errorCounts t + 1 else g.errorCounts t,
          lastErrorType := some .NOT_FOUND,
          lastErrorMessage := some e.message,
          lastErrorTime := some now,
          errorHistory :=
            if (g.errorHistory ++ [ErrorRecord.mk .NOT_FOUND now e.message]).length
                > ERROR_HISTORY_LIMIT
            then (g.errorHistory ++ [ErrorRecord.mk .NOT_FOUND now e.message]).tail
            else g.errorHistory ++ [ErrorRecord.mk .NOT_FOUND now e.message] },
       creds, true) := by
  unfold applyFailure
  rw [hcl]
  dsimp only
  exact authThresholdCheck_of_capped _ _ _ (cappedHist_le _ _ hcap)

/-- C7 counterexample: a NOT_FOUND failure leaves `consecutiveFailures`
unchanged (the switch's decrement cancels the unconditional increment made
just before it), not one lower as the claim states: from 3 it stays 3. -/
theorem C7_counterexample :
    (updateAccountHealth 5 "a" false (some ⟨false, "profile not found"⟩) none
      { freshHealth with consecutiveFailures := 3 } []).1.consecutiveFailures = 3 ∧
    ¬ (updateAccountHealth 5 "a" false (some ⟨false, "profile not found"⟩) none
      { freshHealth with consecutiveFailures := 3 } []).1.consecutiveFailures = 3 - 1 := by
  decide

/-- C7 amended: on a NOT_FOUND failure `updateAccountHealth` leaves
`consecutiveFailures` exactly as it was before the call (the increment of
line 762 is cancelled by the decrement of lines 830-833, with the floor at
zero absorbed by the increment), changes no status, leaves the registry
untouched, and returns true — given the maintained 25-entry cap on the error
history, which keeps the 24h AUTH threshold check from firing. -/
theorem C7_notfound_keeps_state (now : Nat) (u : String) (e : ErrMsg)
    (rtt : Option Nat) (h : AccountHealth) (creds : List Cred)
    (hcl : classifyError e = .NOT_FOUND) (hcap : h.errorHistory.length ≤ 25) :
    (updateAccountHealth now u false (some e) rtt h creds).1.consecutiveFailures
        = h.consecutiveFailures ∧
    (updateAccountHealth now u false (some e) rtt h creds).1.status = h.status ∧
    (updateAccountHealth now u false (some e) rtt h creds).2.1 = creds ∧
    (updateAccountHealth now u false (some e) rtt h creds).2.2 = true := by
  have hrun : updateAccountHealth now u false (some e) rtt h creds
      = applyFailure now u e (updateStats now rtt h) creds := rfl
  rw [hrun, applyFailure_notfound now u e (updateStats now rtt h) creds hcl hcap]
  refine ⟨?_, rfl, rfl, rfl⟩
  show h.consecutiveFailures + 1 - 1 = h.consecutiveFailures
  omega

theorem applySuccess_preserves (now : Nat) (h : AccountHealth)
    (hnd : h.status ≠ .DISABLED) :
    (applySuccess now h).status ≠ .DISABLED ∧ (applySuccess now h).errorHistory = h.errorHistory := by
  unfold applySuccess
  dsimp only
  split
  · exact ⟨by simp, rfl⟩
  · exact ⟨hnd, rfl⟩

theorem applyFailure_preserves (now : Nat) (u : String) (e : ErrMsg) (h : AccountHealth)
    (creds : List Cred) (hcap : h.errorHistory.length ≤ ERROR_HISTORY_LIMIT)
    (hnd : h.status ≠ .DISABLED) :
    (applyFailure now u e h creds).1.status ≠ .DISABLED ∧
    (applyFailure now u e h creds).1.errorHistory.length ≤ ERROR_HISTORY_LIMIT := by
  unfold applyFailure
  dsimp only
  cases hc : classifyError e <;> dsimp only
  case TIMEOUT =>
    exact ⟨by split <;> simp, cappedHist_le _ _ hcap⟩
  case ACCOUNT_LOCKED =>
    exact ⟨by split <;> simp, cappedHist_le _ _ hcap⟩
  case ACCOUNT_SUSPENDED =>
    exact ⟨by split <;> simp, cappedHist_le _ _ hcap⟩
  case RATE_LIMIT =>
    rw [authThresholdCheck_of_capped]
    · exact ⟨by simp, cappedHist_le _ _ hcap⟩
    · exact cappedHist_le _ _ hcap
  case NOT_FOUND =>
    rw [authThresholdCheck_of_capped]
    · exact ⟨hnd, cappedHist_le _ _ hcap⟩
    · exact cappedHist_le _ _ hcap
  case AUTH =>
    split
    · rw [authThresholdCheck_of_capped]
      · exact ⟨by simp, cappedHist_le _ _ hcap⟩
      · exact cappedHist_le _ _ hcap
    · rw [authThresholdCheck_of_capped]
      · exact ⟨hnd, cappedHist_le _ _ hcap⟩
      · exact cappedHist_le _ _ hcap
  case NETWORK =>
    split
    · rw [authThresholdCheck_of_capped]
      · exact ⟨by simp, cappedHist_le _ _ hcap⟩
      · exact cappedHist_le _ _ hcap
    · rw [authThresholdCheck_of_capped]
      · exact ⟨hnd, cappedHist_le _ _ hcap⟩
      · exact cappedHist_le _ _ hcap
  case UNKNOWN =>
    split
    · rw [authThresholdCheck_of_capped]
      · exact ⟨by simp, cappedHist_le _ _ hcap⟩
      · exact cappedHist_le _ _ hcap
    · rw [authThresholdCheck_of_capped]
      · exact ⟨hnd, cappedHist_le _ _ hcap⟩
      · exact cappedHist_le _ _ hcap

/-- C4: the claim's DISABLED sink is unreachable in the code.  First conjunct:
a run of 50 consecutive AUTH-classified failures within 24 hours leaves a
fresh account in COOLDOWN, not DISABLED.  Second conjunct: under the
maintained 25-entry cap on `errorHistory` (which `countRecentAuthErrors`
counts over), no single call of `updateAccountHealth` can make the status
DISABLED or break the cap — the only `DISABLED` assignment in the source
(line 852) requires 50 recorded AUTH errors while at most 26 are ever
recorded at that point. -/
theorem C4_disabled_branch_dead :
    (foldFailures "a"
        ((List.range 50).map (fun i => (i * 1000, ⟨false, "auth failed"⟩)))
        freshHealth [⟨"a", true, false⟩]).1.status = .COOLDOWN ∧
    ∀ (now : Nat) (u : String) (success : Bool) (error : Option ErrMsg)
      (rtt : Option Nat) (h : AccountHealth) (creds : List Cred),
      h.errorHistory.length ≤ 25 → h.status ≠ .DISABLED →
      (updateAccountHealth now u success error rtt h creds).1.status ≠ .DISABLED ∧
      (updateAccountHealth now u success error rtt h creds).1.errorHistory.length ≤ 25 := by
  constructor
  · decide
  · intro now u success error rtt h creds hcap hnd
    unfold updateAccountHealth
    dsimp only
    split
    · refine ⟨(applySuccess_preserves now (updateStats now rtt h) hnd).1, ?_⟩
      have he : (applySuccess now (updateStats now rtt h)).errorHistory = h.errorHistory :=
        (applySuccess_preserves now (updateStats now rtt h) hnd).2
      rw [he]
      exact hcap
    · split
      · rename_i e2
        exact applyFailure_preserves now u e2 (updateStats now rtt h) creds hcap hnd
      · exact ⟨hnd, hcap⟩

/-- C4 witness: a single AUTH failure on a fresh account neither disables it
nor breaks the history cap. -/
theorem C4_disabled_branch_dead_witness :
    (updateAccountHealth 3 "a" false (some ⟨false, "auth failed"⟩) none freshHealth
      []).1.status ≠ .DISABLED ∧
    (updateAccountHealth 3 "a" false (some ⟨false, "auth failed"⟩) none freshHealth
      []).1.errorHistory.length ≤ 25 :=
  C4_disabled_branch_dead.2 3 "a" false (some ⟨false, "auth failed"⟩) none freshHealth []
    (by decide) (by decide)

/-- C7 witness: a concrete NOT_FOUND failure with four prior consecutive
failures keeps the counter at four, the status, the registry and the true
return. -/
theorem C7_notfound_keeps_state_witness :
    (updateAccountHealth 9 "a" false (some ⟨false, "user not found"⟩) none
      { freshHealth with consecutiveFailures := 4 } [⟨"a", true, false⟩]).1.consecutiveFailures
        = 4 ∧
    (updateAccountHealth 9 "a" false (some ⟨false, "user not found"⟩) none
      { freshHealth with consecutiveFailures := 4 } [⟨"a", true, false⟩]).1.status
        = AccountStatus.HEALTHY ∧
    (updateAccountHealth 9 "a" false (some ⟨false, "user not found"⟩) none
      { freshHealth with consecutiveFailures := 4 } [⟨"a", true, false⟩]).2.1
        = [⟨"a", true, false⟩] ∧
    (updateAccountHealth 9 "a" false (some ⟨false, "user not found"⟩) none
      { freshHealth with consecutiveFailures := 4 } [⟨"a", true, false⟩]).2.2 = true :=
  C7_notfound_keeps_state 9 "a" ⟨false, "user not found"⟩ none
    { freshHealth with consecutiveFailures := 4 } [⟨"a", true, false⟩] (by decide) (by decide)

theorem lookup_append_of_some {β : Type} {l1 l2 : List (String × β)} {u : String} {b : β}
    (h : l1.lookup u = some b) : (l1 ++ l2).lookup u = some b := by
  induction l1 with
  | nil => simp [List.lookup] at h
  | cons kv rest ih =>
    rw [List.cons_append]
    cases hk : u == kv.1 <;>
      simp only [List.lookup, hk] at h ⊢
    · exact ih h
    · exact h

theorem lookup_append_self {β : Type} {l : List (String × β)} {u : String} (b : β)
    (h : l.lookup u = none) : (l ++ [(u, b)]).lookup u = some b := by
  induction l with
  | nil => simp [List.lookup]
  | cons kv rest ih =>
    rw [List.cons_append]
    cases hk : u == kv.1 <;>
      simp only [List.lookup, hk] at h ⊢
    · exact ih h
    · exact Option.noConfusion h

theorem assign_preserves {st : ProxyState} {u : String} {p : Proxy} (u2 : String)
    (h : st.assignment.lookup u = some p) :
    (assignProxyToAccount st u2).2.assignment.lookup u = some p := by
  unfold assignProxyToAccount
  cases hl : st.assignment.lookup u2 <;> dsimp only
  · split
    · exact h
    · exact lookup_append_of_some h
  · exact h

theorem applyAssignments_preserves {u : String} {p : Proxy} (us : List String)
    (st : ProxyState) (h : st.assignment.lookup u = some p) :
    (applyAssignments us st).assignment.lookup u = some p := by
  induction us generalizing st with
  | nil => exact h
  | cons v rest ih => exact ih _ (assign_preserves v h)

/-- C9: proxy assignment is sticky round-robin.  For a username without a
binding and a nonempty pool, the first call returns the proxy at index
`assignedCount % |proxies|` and records the binding; once a binding exists,
any further sequence of assignment calls still returns the same proxy for
that username; with an empty pool and no binding, the call returns none. -/
theorem C9_proxy_assignment (st : ProxyState) (u : String) :
    (st.assignment.lookup u = none → st.proxies ≠ [] →
      (assignProxyToAccount st u).1
          = st.proxies.get? (st.assignment.length % st.proxies.length) ∧
      (assignProxyToAccount st u).2.assignment.lookup u = (assignProxyToAccount st u).1) ∧
    (∀ (p : Proxy) (us : List String), st.assignment.lookup u = some p →
      (assignProxyToAccount (applyAssignments us st) u).1 = some p) ∧
    (st.assignment.lookup u = none → st.proxies = [] →
      (assignProxyToAccount st u).1 = none) := by
  refine ⟨?_, ?_, ?_⟩
  · intro hnone hne
    unfold assignProxyToAccount
    rw [hnone]
    dsimp only
    rw [dif_neg (fun h0 => hne (List.length_eq_zero.mp h0))]
    exact ⟨(List.get?_eq_get _).symm, lookup_append_self _ hnone⟩
  · intro p us hsome
    have hkeep := applyAssignments_preserves us st hsome
    unfold assignProxyToAccount
    rw [hkeep]
  · intro hnone hemp
    unfold assignProxyToAccount
    rw [hnone]
    dsimp only
    rw [dif_pos (by rw [hemp]; rfl)]

/-- C9 witness: with one proxy and no bindings, `"a"` gets `proxies[0 % 1]`;
the binding survives a later assignment to `"b"`; an empty pool yields none. -/
theorem C9_proxy_assignment_witness :
    (assignProxyToAccount ⟨[⟨"h", "80", "pu", "pw", "proxy-0", 0⟩], []⟩ "a").1
        = [(⟨"h", "80", "pu", "pw", "proxy-0", 0⟩ : Proxy)].get? (0 % 1) ∧
    (assignProxyToAccount
        (applyAssignments ["b"]
          ⟨[⟨"h", "80", "pu", "pw", "proxy-0", 0⟩],
           [("a", ⟨"h", "80", "pu", "pw", "proxy-0", 0⟩)]⟩) "a").1
        = some ⟨"h", "80", "pu", "pw", "proxy-0", 0⟩ ∧
    (assignProxyToAccount ⟨[], []⟩ "a").1 = none := by
  refine ⟨?_, ?_, ?_⟩
  · exact ((C9_proxy_assignment ⟨[⟨"h", "80", "pu", "pw", "proxy-0", 0⟩], []⟩ "a").1
      rfl (by decide)).1
  · exact (C9_proxy_assignment _ "a").2.1 ⟨"h", "80", "pu", "pw", "proxy-0", 0⟩ ["b"] rfl
  · exact (C9_proxy_assignment ⟨[], []⟩ "a").2.2 rfl rfl

theorem lookup_setH_self (u : String) (h0 : AccountHealth) (hm : HMap) :
    (setH u h0 hm).lookup u = some h0 := by
  induction hm with
  | nil => simp [setH, List.lookup]
  | cons p rest ih =>
    unfold setH
    by_cases hp : p.1 = u
    · rw [if_pos hp]
      simp [List.lookup]
    · rw [if_neg hp]
      have hbe : (u == p.1) = false := by
        simp only [beq_eq_false_iff_ne, ne_eq]
        exact fun he => hp he.symm
      simp only [List.lookup, hbe]
      exact ih

theorem lookup_setH_ne (u u2 : String) (h0 : AccountHealth) (hm : HMap)
    (hne : u2 ≠ u) : (setH u h0 hm).lookup u2 = hm.lookup u2 := by
  induction hm with
  | nil =>
    simp [setH, List.lookup, show (u2 == u) = false from beq_eq_false_iff_ne.mpr hne]
  | cons p rest ih =>
    unfold setH
    by_cases hp : p.1 = u
    · rw [if_pos hp]
      have hbe2 : (u2 == p.1) = false := by
        rw [hp]
        exact beq_eq_false_iff_ne.mpr hne
      simp only [List.lookup, show (u2 == u) = false from beq_eq_false_iff_ne.mpr hne, hbe2]
    · rw [if_neg hp]
      simp only [List.lookup]
      cases u2 == p.1
      · exact ih
      · rfl

theorem lookup_ensureHealth_of_some (v u : String) (hm : HMap) (h0 : AccountHealth)
    (h : hm.lookup u = some h0) : (ensureHealth v hm).lookup u = some h0 := by
  unfold ensureHealth
  cases hv : hm.lookup v
  · dsimp only
    have hne : (u == v) = false := by
      cases hbe : u == v
      · rfl
      · rw [beq_iff_eq] at hbe
        rw [hbe] at h
        rw [h] at hv
        exact Option.noConfusion hv
    simp only [List.lookup, hne]
    exact h
  · exact h

theorem ensureHealth_isSome (v : String) (hm : HMap) :
    ∃ h1, (ensureHealth v hm).lookup v = some h1 := by
  unfold ensureHealth
  cases hv : hm.lookup v
  · exact ⟨freshHealth, by simp [List.lookup]⟩
  · exact ⟨_, hv⟩

theorem setStatusH_locked_stable (v u : String) (hm : HMap) (h0 : AccountHealth)
    (h : hm.lookup u = some h0) (hst : h0.status = .LOCKED) :
    ∃ h1, (setStatusH v .LOCKED hm).lookup u = some h1 ∧ h1.status = .LOCKED := by
  unfold setStatusH
  cases hv : hm.lookup v
  · exact ⟨h0, h, hst⟩
  · dsimp only
    by_cases hue : u = v
    · subst hue
      exact ⟨_, lookup_setH_self u _ hm, rfl⟩
    · rw [lookup_setH_ne _ _ _ _ hue]
      exact ⟨h0, h, hst⟩

theorem setStatusH_sets (v : String) (hm : HMap) (h1 : AccountHealth)
    (h : hm.lookup v = some h1) :
    ∃ h2, (setStatusH v .LOCKED hm).lookup v = some h2 ∧ h2.status = .LOCKED := by
  unfold setStatusH
  rw [h]
  exact ⟨_, lookup_setH_self v _ hm, rfl⟩

theorem loadCredentials_invariant (fcs : List Cred) (st : List Cred × HMap)
    (hst : ∀ c ∈ st.1, (c.isLocked = false → c.usable = true) ∧
      (c.isLocked = true →
        ∃ h0, st.2.lookup c.username = some h0 ∧ h0.status = .LOCKED)) :
    ∀ c ∈ (fcs.foldl loadStep st).1,
      (c.isLocked = false → c.usable = true) ∧
      (c.isLocked = true →
        ∃ h0, (fcs.foldl loadStep st).2.lookup c.username = some h0 ∧
          h0.status = .LOCKED) := by
  induction fcs generalizing st with
  | nil => exact hst
  | cons c0 rest ih =>
    rw [List.foldl_cons]
    refine ih (loadStep st c0) ?_
    intro c hc
    unfold loadStep at hc ⊢
    by_cases hl0 : c0.isLocked
    · rw [if_pos hl0] at hc ⊢
      rcases List.mem_append.mp hc with hold | hnew
      · refine ⟨(hst c hold).1, fun hlock => ?_⟩
        obtain ⟨h0, hlk, hls⟩ := (hst c hold).2 hlock
        exact setStatusH_locked_stable _ _ _ _
          (lookup_ensureHealth_of_some _ _ _ _ hlk) hls
      · have hc0 : c = c0 := by simpa using hnew
        subst hc0
        refine ⟨fun hff => absurd hl0 (by rw [hff]; exact Bool.false_ne_true), fun _ => ?_⟩
        obtain ⟨h1, hh1⟩ := ensureHealth_isSome c.username st.2
        exact setStatusH_sets _ _ _ hh1
    · rw [if_neg hl0] at hc ⊢
      rcases List.mem_append.mp hc with hold | hnew
      · refine ⟨(hst c hold).1, fun hlock => ?_⟩
        obtain ⟨h0, hlk, hls⟩ := (hst c hold).2 hlock
        exact ⟨h0, lookup_ensureHealth_of_some _ _ _ _ hlk, hls⟩
      · have hc0 : c = { c0 with usable := true } := by simpa using hnew
        subst hc0
        exact ⟨fun _ => rfl, fun hlock => absurd hlock (by simpa using hl0)⟩

/-- C10: after a completed `loadCredentials`, every loaded credential that is
not hard-locked has been marked `usable = true` (a persisted `usable = false`
on an unlocked account is overwritten in memory), and every hard-locked
credential has its health record's status set to LOCKED. -/
theorem C10_load_normalises (fileCreds : List Cred) (hm : HMap) :
    ∀ c ∈ (loadCredentials fileCreds hm).1,
      (c.isLocked = false → c.usable = true) ∧
      (c.isLocked = true →
        ∃ h0, (loadCredentials fileCreds hm).2.lookup c.username = some h0 ∧
          h0.status = .LOCKED) :=
  loadCredentials_invariant fileCreds ([], hm) (by simp)

/-- C10 witness: loading `"a"` (unlocked, persisted unusable) and `"b"`
(locked) marks `"a"` usable and `"b"`'s health LOCKED. -/
theorem C10_load_normalises_witness :
    ((⟨"a", false, false⟩ : Cred).isLocked = false → (⟨"a", true, false⟩ : Cred).usable = true) ∧
    (∃ h0, (loadCredentials [⟨"a", false, false⟩, ⟨"b", true, true⟩] []).2.lookup "b"
        = some h0 ∧ h0.status = .LOCKED) := by
  constructor
  · intro _
    rfl
  · exact (C10_load_normalises [⟨"a", false, false⟩, ⟨"b", true, true⟩] []
      ⟨"b", true, true⟩ (by decide)).2 rfl

theorem mapFirstCred_usernames (u : String) (f : Cred → Cred) (l : List Cred)
    (hfu : ∀ x : Cred, x.username = u → (f x).username = u) :
    (mapFirstCred u f l).map (fun c => c.username) = l.map (fun c => c.username) := by
  induction l with
  | nil => rfl
  | cons c rest ih =>
    unfold mapFirstCred
    by_cases hc : c.username = u
    · rw [if_pos hc]
      simp only [List.map_cons]
      rw [hfu c hc, hc]
    · rw [if_neg hc]
      simp only [List.map_cons]
      rw [ih]

theorem mem_of_mapFirstCred {u : String} {f : Cred → Cred} {l : List Cred} {c2 : Cred}
    (hmem : c2 ∈ mapFirstCred u f l)
    (hfu : ∀ x : Cred, x.username = u → (f x).username = u)
    (hne : c2.username ≠ u) : c2 ∈ l := by
  induction l with
  | nil => simp [mapFirstCred] at hmem
  | cons c rest ih =>
    unfold mapFirstCred at hmem
    by_cases hc : c.username = u
    · rw [if_pos hc] at hmem
      rcases List.mem_cons.mp hmem with h1 | h2
      · exact absurd (h1 ▸ hne) (by simp [hfu c hc])
      · exact List.mem_cons_of_mem _ h2
    · rw [if_neg hc] at hmem
      rcases List.mem_cons.mp hmem with h1 | h2
      · exact h1 ▸ List.mem_cons_self _ _
      · exact List.mem_cons_of_mem _ (ih h2)

theorem mem_mapFirstCred_at_u {u : String} {f : Cred → Cred} {l : List Cred} {c2 : Cred}
    (hnd : (l.map (fun c => c.username)).Nodup)
    (hmem : c2 ∈ mapFirstCred u f l) (heq : c2.username = u) :
    ∃ c ∈ l, c.username = u ∧ c2 = f c := by
  induction l with
  | nil => simp [mapFirstCred] at hmem
  | cons c rest ih =>
    unfold mapFirstCred at hmem
    by_cases hc : c.username = u
    · rw [if_pos hc] at hmem
      rcases List.mem_cons.mp hmem with h1 | h2
      · exact ⟨c, List.mem_cons_self _ _, hc, h1⟩
      · exfalso
        have : c2.username ∈ rest.map (fun c => c.username) := List.mem_map_of_mem _ h2
        rw [heq, ← hc] at this
        exact (List.nodup_cons.mp hnd).1 this
    · rw [if_neg hc] at hmem
      rcases List.mem_cons.mp hmem with h1 | h2
      · exact absurd (h1 ▸ heq) hc
      · obtain ⟨c3, hc3, hcu, hce⟩ := ih (List.nodup_cons.mp hnd).2 h2
        exact ⟨c3, List.mem_cons_of_mem _ hc3, hcu, hce⟩

theorem healthOf_setH_self (creds : List Cred) (hm : HMap) (u : String)
    (h0 : AccountHealth) :
    (SysState.mk creds (setH u h0 hm)).healthOf u = h0 := by
  unfold SysState.healthOf
  dsimp only
  rw [lookup_setH_self]
  rfl

theorem healthOf_setH_ne (creds : List Cred) (hm : HMap) (u u2 : String)
    (h0 : AccountHealth) (hne : u2 ≠ u) (creds2 : List Cred) :
    (SysState.mk creds (setH u h0 hm)).healthOf u2 = (SysState.mk creds2 hm).healthOf u2 := by
  unfold SysState.healthOf
  dsimp only
  rw [lookup_setH_ne _ _ _ _ hne]

theorem uah_dichotomy (now : Nat) (u : String) (success : Bool) (error : Option ErrMsg)
    (rtt : Option Nat) (h : AccountHealth) (creds : List Cred) :
    (updateAccountHealth now u success error rtt h creds).2.1 = markLockedFirst u creds ∨
    ((updateAccountHealth now u success error rtt h creds).2.1 = creds ∧
      ((updateAccountHealth now u success error rtt h creds).1.status = .SUSPENDED →
        h.status = .SUSPENDED)) := by
  unfold updateAccountHealth
  dsimp only
  split
  · refine Or.inr ⟨rfl, ?_⟩
    unfold applySuccess
    dsimp only
    split
    · intro hs
      exact AccountStatus.noConfusion hs
    · exact fun hs => hs
  · split
    · rename_i e2
      unfold applyFailure
      dsimp only
      cases hc : classifyError e2 <;> dsimp only
      case TIMEOUT => exact Or.inl rfl
      case ACCOUNT_LOCKED => exact Or.inl rfl
      case ACCOUNT_SUSPENDED => exact Or.inl rfl
      all_goals
        unfold authThresholdCheck
        repeat' split
        all_goals
          first
          | exact Or.inr ⟨rfl, fun hs => AccountStatus.noConfusion hs⟩
          | exact Or.inr ⟨rfl, fun hs => hs⟩
    · exact Or.inr ⟨rfl, fun hs => hs⟩

theorem expireCooldown_status (now : Nat) (h1 : AccountHealth) :
    (expireCooldown now h1).status = .PROBATION ∨
      (expireCooldown now h1).status = h1.status := by
  unfold expireCooldown
  split
  · exact Or.inl rfl
  · exact Or.inr rfl

theorem resetStaleErrors_status (now : Nat) (h2 : AccountHealth) :
    (resetStaleErrors now h2).status = h2.status := by
  unfold resetStaleErrors
  repeat' split
  all_goals rfl

theorem reactivateCred_username (c : Cred) :
    (reactivateCred c).username = c.username := by
  unfold reactivateCred
  split <;> rfl

theorem reactivateCred_isLocked (c : Cred) :
    (reactivateCred c).isLocked = c.isLocked := by
  unfold reactivateCred
  split <;> rfl

theorem recoveryLogin_username (now : Nat) (eff : LoginEffect) (c1 : Cred)
    (h3 : AccountHealth) :
    (recoveryLogin now eff c1 h3).1.username = c1.username := by
  unfold recoveryLogin
  repeat' split
  all_goals rfl

theorem recoveryLogin_susp (now : Nat) (eff : LoginEffect) (c1 : Cred)
    (h3 : AccountHealth) :
    (recoveryLogin now eff c1 h3).2.status = .SUSPENDED →
      h3.status = .SUSPENDED ∧ (recoveryLogin now eff c1 h3).1 = c1 := by
  unfold recoveryLogin
  repeat' split
  all_goals
    first
    | exact fun hs => AccountStatus.noConfusion hs
    | exact fun hs => ⟨hs, rfl⟩

theorem sweepAccount_username (now : Nat) (eff : LoginEffect) (c : Cred)
    (h : AccountHealth) :
    (sweepAccount now eff c h).1.username = c.username := by
  unfold sweepAccount
  dsimp only
  repeat' split
  all_goals first
    | rfl
    | rw [recoveryLogin_username, reactivateCred_username]

theorem sweepAccount_susp (now : Nat) (eff : LoginEffect) (c : Cred)
    (h : AccountHealth) :
    (sweepAccount now eff c h).2.status = .SUSPENDED →
      h.status = .SUSPENDED ∧ (sweepAccount now eff c h).1 = c := by
  unfold sweepAccount
  dsimp only
  split
  · exact fun hs => ⟨hs, rfl⟩
  · split
    · exact fun hs => ⟨hs, rfl⟩
    · split
      · exact fun hs => ⟨hs, rfl⟩
      · rename_i hA hB hC
        intro hs
        exfalso
        obtain ⟨hS3, _⟩ := recoveryLogin_susp _ _ _ _ hs
        rw [resetStaleErrors_status] at hS3
        rcases expireCooldown_status now
            { h with requestHistory := trimWindow now h.requestHistory } with he | he
        · rw [he] at hS3
          exact AccountStatus.noConfusion hS3
        · rw [he] at hS3
          exact hC hS3

theorem sweepAccount_analysis (now : Nat) (eff : LoginEffect) (c : Cred)
    (h : AccountHealth) :
    (sweepAccount now eff c h).1.username = c.username ∧
    ((sweepAccount now eff c h).2.status = .SUSPENDED →
      h.status = .SUSPENDED ∧ (sweepAccount now eff c h).1 = c) :=
  ⟨sweepAccount_username now eff c h, sweepAccount_susp now eff c h⟩

theorem findCred_mem {creds : List Cred} {u : String} {c : Cred}
    (h : findCred creds u = some c) : c ∈ creds := by
  unfold findCred at h
  exact List.mem_of_find?_eq_some h

theorem findCred_username {creds : List Cred} {u : String} {c : Cred}
    (h : findCred creds u = some c) : c.username = u := by
  unfold findCred at h
  have hp := List.find?_some h
  exact of_decide_eq_true hp

theorem canReq_fst (h : AccountHealth) (now : Nat) :
    (canAccountMakeRequest h now).1
      = { h with requestHistory := trimWindow now h.requestHistory } := by
  unfold canAccountMakeRequest
  dsimp only
  split <;> rfl

theorem inv_mark (σ : SysState) (u : String) (h0 : AccountHealth) (hinv : Inv σ) :
    Inv ⟨markLockedFirst u σ.creds, setH u h0 σ.health⟩ := by
  obtain ⟨hnd, hsus⟩ := hinv
  constructor
  · dsimp only
    unfold markLockedFirst
    rw [mapFirstCred_usernames u
      (fun c => { c with isLocked := true, usable := false }) σ.creds (fun x hx => hx)]
    exact hnd
  · intro c2 hc2 hs
    dsimp only at hc2 hs ⊢
    by_cases hu : c2.username = u
    · unfold markLockedFirst at hc2
      obtain ⟨c3, hc3, hc3u, hc3e⟩ := mem_mapFirstCred_at_u hnd hc2 hu
      rw [hc3e]
    · unfold markLockedFirst at hc2
      have hmem := mem_of_mapFirstCred hc2 (fun x hx => hx) hu
      rw [healthOf_setH_ne _ _ _ _ _ hu σ.creds] at hs
      exact hsus c2 hmem hs

theorem inv_step {σ σ2 : SysState} (hstep : Step σ σ2) (hinv : Inv σ) : Inv σ2 := by
  obtain ⟨hnd, hsus⟩ := hinv
  cases hstep with
  | healthUpdate now u success error rtt =>
    rcases uah_dichotomy now u success error rtt (σ.healthOf u) σ.creds with hd | ⟨hcr, hst⟩
    · unfold applyUpdate
      dsimp only
      rw [hd]
      exact inv_mark σ u _ ⟨hnd, hsus⟩
    · unfold applyUpdate
      dsimp only
      rw [hcr]
      constructor
      · exact hnd
      · intro c2 hc2 hs
        dsimp only at hc2 hs ⊢
        by_cases hu : c2.username = u
        · rw [hu, healthOf_setH_self] at hs
          exact hsus c2 hc2 (by rw [hu]; exact hst hs)
        · rw [healthOf_setH_ne _ _ _ _ _ hu σ.creds] at hs
          exact hsus c2 hc2 hs
  | manualMark u st hst => exact inv_mark σ u _ ⟨hnd, hsus⟩
  | login326 u => exact inv_mark σ u _ ⟨hnd, hsus⟩
  | loginFresh u c hc hunlocked =>
    constructor
    · dsimp only
      unfold setUnlockedUsable
      rw [mapFirstCred_usernames u
        (fun c => { c with usable := true, isLocked := false }) σ.creds (fun x hx => hx)]
      exact hnd
    · intro c2 hc2 hs
      dsimp only at hc2 hs ⊢
      unfold setUnlockedUsable at hc2
      by_cases hu : c2.username = u
      · exfalso
        have hcmem : c ∈ σ.creds := findCred_mem hc
        have hcu : c.username = u := findCred_username hc
        have hsusp : (σ.healthOf u).status = .SUSPENDED := by
          rw [← hu]
          exact hs
        have hlock := hsus c hcmem (by rw [hcu]; exact hsusp)
        rw [hunlocked] at hlock
        exact Bool.noConfusion hlock
      · have hmem := mem_of_mapFirstCred hc2 (fun x hx => hx) hu
        exact hsus c2 hmem hs
  | sweepOne now u eff c hc =>
    have hana := sweepAccount_analysis now eff c (σ.healthOf u)
    have hcmem : c ∈ σ.creds := findCred_mem hc
    have hcu : c.username = u := findCred_username hc
    constructor
    · dsimp only
      rw [mapFirstCred_usernames u
        (fun _ => (sweepAccount now eff c (σ.healthOf u)).1) σ.creds
        (fun x _ => by rw [hana.1, hcu])]
      exact hnd
    · intro c2 hc2 hs
      dsimp only at hc2 hs ⊢
      by_cases hu : c2.username = u
      · obtain ⟨c3, _, _, hc3e⟩ := mem_mapFirstCred_at_u hnd hc2 hu
        rw [hu, healthOf_setH_self] at hs
        obtain ⟨hsus0, hceq⟩ := hana.2 hs
        have hlock := hsus c hcmem (by rw [hcu]; exact hsus0)
        rw [hc3e, hceq]
        exact hlock
      · rw [healthOf_setH_ne _ _ _ _ _ hu σ.creds] at hs
        have hmem := mem_of_mapFirstCred hc2 (fun x _ => by rw [hana.1, hcu]) hu
        exact hsus c2 hmem hs
  | trimHistory now u =>
    constructor
    · exact hnd
    · intro c2 hc2 hs
      dsimp only at hc2 hs ⊢
      by_cases hu : c2.username = u
      · rw [hu, healthOf_setH_self, canReq_fst] at hs
        exact hsus c2 hc2 (by rw [hu]; exact hs)
      · rw [healthOf_setH_ne _ _ _ _ _ hu σ.creds] at hs
        exact hsus c2 hc2 hs

theorem setStatusH_status (v : String) (s : AccountStatus) (hm : HMap) (u : String)
    (h0 : AccountHealth) (h : (setStatusH v s hm).lookup u = some h0) :
    h0.status = s ∨ hm.lookup u = some h0 := by
  unfold setStatusH at h
  rcases hv : hm.lookup v with _ | h1 <;> rw [hv] at h <;> dsimp only at h
  · exact Or.inr h
  · by_cases hue : u = v
    · subst hue
      rw [lookup_setH_self] at h
      left
      rw [← Option.some.inj h]
    · rw [lookup_setH_ne _ _ _ _ hue] at h
      exact Or.inr h

theorem ensureHealth_lookup_cases (v u : String) (hm : HMap) (h0 : AccountHealth)
    (h : (ensureHealth v hm).lookup u = some h0) :
    hm.lookup u = some h0 ∨ h0 = freshHealth := by
  unfold ensureHealth at h
  rcases hv : hm.lookup v with _ | h1 <;> rw [hv] at h <;> dsimp only at h
  · cases hbe : u == v <;> simp only [List.lookup, hbe] at h
    · exact Or.inl h
    · exact Or.inr (Option.some.inj h).symm
  · exact Or.inl h

theorem load_usernames (fcs : List Cred) (st : List Cred × HMap) :
    ((fcs.foldl loadStep st).1).map (fun c => c.username)
      = st.1.map (fun c => c.username) ++ fcs.map (fun c => c.username) := by
  induction fcs generalizing st with
  | nil => simp
  | cons c0 rest ih =>
    rw [List.foldl_cons, ih]
    unfold loadStep
    by_cases hl : c0.isLocked
    · rw [if_pos hl]
      simp
    · rw [if_neg hl]
      simp

theorem load_health_no_susp (fcs : List Cred) (st : List Cred × HMap)
    (hst : ∀ u h0, st.2.lookup u = some h0 → h0.status ≠ .SUSPENDED) :
    ∀ u h0, (fcs.foldl loadStep st).2.lookup u = some h0 → h0.status ≠ .SUSPENDED := by
  induction fcs generalizing st with
  | nil => exact hst
  | cons c0 rest ih =>
    rw [List.foldl_cons]
    refine ih (loadStep st c0) ?_
    intro u h0 hlk
    unfold loadStep at hlk
    by_cases hl : c0.isLocked
    · rw [if_pos hl] at hlk
      dsimp only at hlk
      rcases setStatusH_status _ _ _ _ _ hlk with hLK | hin
      · rw [hLK]
        exact fun hx => AccountStatus.noConfusion hx
      · rcases ensureHealth_lookup_cases _ _ _ _ hin with hin2 | hfr
        · exact hst u h0 hin2
        · rw [hfr]
          exact fun hx => AccountStatus.noConfusion hx
    · rw [if_neg hl] at hlk
      dsimp only at hlk
      rcases ensureHealth_lookup_cases _ _ _ _ hlk with hin2 | hfr
      · exact hst u h0 hin2
      · rw [hfr]
        exact fun hx => AccountStatus.noConfusion hx

theorem loadCredentials_no_susp (fcs : List Cred) (u : String) (h0 : AccountHealth)
    (h : (loadCredentials fcs []).2.lookup u = some h0) : h0.status ≠ .SUSPENDED := by
  unfold loadCredentials at h
  refine load_health_no_susp fcs ([], []) ?_ u h0 h
  intro u2 h2 hx
  simp [List.lookup] at hx

theorem inv_init (fileCreds : List Cred)
    (hnd : (fileCreds.map (fun c => c.username)).Nodup) : Inv (initState fileCreds) := by
  constructor
  · show (((loadCredentials fileCreds []).1).map (fun c => c.username)).Nodup
    unfold loadCredentials
    rw [load_usernames]
    simpa using hnd
  · intro c2 hc2 hs
    have hs2 : ((SysState.mk (loadCredentials fileCreds []).1
        (loadCredentials fileCreds []).2).healthOf c2.username).status = .SUSPENDED := hs
    unfold SysState.healthOf at hs2
    dsimp only at hs2
    rcases hv : (loadCredentials fileCreds []).2.lookup c2.username with _ | h0 <;>
      rw [hv] at hs2
    · exact absurd hs2 (fun hx => AccountStatus.noConfusion hx)
    · exact absurd hs2 (loadCredentials_no_susp fileCreds c2.username h0 hv)

theorem inv_reachable (fileCreds : List Cred) (σ : SysState)
    (hnd : (fileCreds.map (fun c => c.username)).Nodup)
    (hreach : Reachable fileCreds σ) : Inv σ := by
  unfold Reachable at hreach
  induction hreach with
  | refl => exact inv_init fileCreds hnd
  | tail hab hbc ih => exact inv_step hbc ih

theorem picked_props (now k : Nat) (σ : SysState) (c : Cred)
    (hsel : selectAvailableAccount now k σ = .picked c) :
    c ∈ σ.creds ∧ selectionOk now σ c = true := by
  unfold selectAvailableAccount at hsel
  dsimp only at hsel
  split at hsel
  · have hc := Selection.picked.inj hsel
    have hmem : c ∈ availableAccounts now σ := by
      rw [← hc]
      exact List.get_mem _ _ _
    unfold availableAccounts at hmem
    exact ⟨(List.mem_filter.mp hmem).1, (List.mem_filter.mp hmem).2⟩
  · split at hsel
    · exact Selection.noConfusion hsel
    · exact Selection.noConfusion hsel

theorem selectionOk_props (now : Nat) (σ : SysState) (c : Cred) (hinv : Inv σ)
    (hmem : c ∈ σ.creds) (hok : selectionOk now σ c = true) :
    (σ.healthOf c.username).status ≠ .LOCKED ∧
    (σ.healthOf c.username).status ≠ .SUSPENDED ∧
    (σ.healthOf c.username).status ≠ .DISABLED ∧
    ¬((σ.healthOf c.username).status = .COOLDOWN ∧
      ∃ cu, (σ.healthOf c.username).cooldownUntil = some cu ∧ now < cu) := by
  unfold selectionOk at hok
  dsimp only at hok
  simp only [Bool.and_eq_true] at hok
  obtain ⟨⟨⟨⟨⟨husable, hnlock⟩, hcanreq⟩, hdis⟩, hlk⟩, hcool⟩ := hok
  refine ⟨of_decide_eq_true hlk, ?_, of_decide_eq_true hdis, ?_⟩
  · intro hs
    have hlocked := hinv.2 c hmem hs
    simp [hlocked] at hnlock
  · rintro ⟨hcd, cu, hcueq, hlt⟩
    rw [Bool.not_eq_true'] at hcool
    rw [hcueq] at hcool
    simp only [hcd] at hcool
    simp [hlt] at hcool

/-- C2: from any state reachable from a completed registry load (with unique
usernames) by the orchestrator's own transitions, `selectAvailableAccount`
never picks an account whose health status is LOCKED, SUSPENDED or DISABLED,
nor one in COOLDOWN whose `cooldownUntil` lies after `now`.  (LOCKED,
DISABLED and unexpired COOLDOWN are excluded by the selection filter itself;
SUSPENDED is excluded through the maintained invariant that a SUSPENDED
account always carries `isLocked = true`, which the filter rejects.) -/
theorem C2_selection_sound (fileCreds : List Cred) (σ : SysState) (now k : Nat) (c : Cred)
    (hnd : (fileCreds.map (fun c => c.username)).Nodup)
    (hreach : Reachable fileCreds σ)
    (hsel : selectAvailableAccount now k σ = .picked c) :
    (σ.healthOf c.username).status ≠ .LOCKED ∧
    (σ.healthOf c.username).status ≠ .SUSPENDED ∧
    (σ.healthOf c.username).status ≠ .DISABLED ∧
    ¬((σ.healthOf c.username).status = .COOLDOWN ∧
      ∃ cu, (σ.healthOf c.username).cooldownUntil = some cu ∧ now < cu) := by
  have hinv := inv_reachable fileCreds σ hnd hreach
  obtain ⟨hmem, hok⟩ := picked_props now k σ c hsel
  exact selectionOk_props now σ c hinv hmem hok

/-- C2 witness: in the freshly loaded one-account state, account `"a"` is
picked and indeed carries none of the excluded statuses. -/
theorem C2_selection_sound_witness :
    ((initState [⟨"a", true, false⟩]).healthOf "a").status ≠ .LOCKED ∧
    ((initState [⟨"a", true, false⟩]).healthOf "a").status ≠ .SUSPENDED ∧
    ((initState [⟨"a", true, false⟩]).healthOf "a").status ≠ .DISABLED ∧
    ¬(((initState [⟨"a", true, false⟩]).healthOf "a").status = .COOLDOWN ∧
      ∃ cu, ((initState [⟨"a", true, false⟩]).healthOf "a").cooldownUntil = some cu ∧
        0 < cu) :=
  C2_selection_sound [⟨"a", true, false⟩] (initState [⟨"a", true, false⟩]) 0 0
    ⟨"a", true, false⟩ (by decide) Relation.ReflTransGen.refl (by decide)

end XScraper
